import Mathlib

/-!
Verification of the configuration-interpolation layer and the cluster-mode
naming helpers of a multi-service container orchestration tool.

The cluster-mode helpers (`find_container_name`, `is_cluster_mode`) are
embedded from `fig/utils.py`.  The interpolation engine
(`interpolate_environment_variables` and the Environment it consumes) is
exercised by the repository's unit tests but its implementation module is not
part of the source fragment, so it is modelled from the specification; the
definitions concerned say so in their doc comments.
-/

/-! ## Embedding of fig/utils.py -/

/-- Python's `str.split('/')`, on a list of characters: splitting on a single
slash keeps empty pieces, so a leading slash contributes an empty first
piece and the empty string splits to `[[]]`. -/
def splitSlashChars : List Char → List (List Char)
  | [] => [[]]
  | c :: rest =>
      if c == '/' then [] :: splitSlashChars rest
      else
        match splitSlashChars rest with
        | [] => [[c]]
        | piece :: pieces => (c :: piece) :: pieces

/-- `name.split('/')` as used in `fig/utils.py`. -/
def split_slash (s : String) : List String :=
  (splitSlashChars s.data).map String.mk

/-- Embeds `find_container_name(names)` from `fig/utils.py`.  The Python code
reads the process-wide cluster-mode flag via `is_cluster_mode()`; here the
flag is an explicit argument.  For each name in order it computes
`values = name.split('/')`; in cluster mode it returns `values[2]` when
`len(values) == 3`, otherwise (non-cluster) it returns `values[1]` when
`len(values) == 2`; if no name matches it falls off the loop and returns
`None`. -/
def find_container_name (cluster : Bool) : List String → Option String
  | [] => none
  | name :: rest =>
      let values := split_slash name
      if cluster then
        if values.length = 3 then some (values.getD 2 "")
        else find_container_name cluster rest
      else
        if values.length = 2 then some (values.getD 1 "")
        else find_container_name cluster rest

/-- Python's `s.startswith(p)` on lists of characters. -/
def startswith : List Char → List Char → Bool
  | _, [] => true
  | [], _ :: _ => false
  | c :: s, p :: ps => c == p && startswith s ps

/-- Observable outcome of one call to `is_cluster_mode()`: the value returned
(or the exception propagated), the state of the module-level `cluster_mode`
global after the call, and whether the daemon's version endpoint was queried
during the call. -/
structure ClusterCall where
  result : Except String Bool
  cache : Option Bool
  queried : Bool

/-- Embeds `is_cluster_mode()` from `fig/utils.py`.  The module-level global
`cluster_mode` (initially `None`) is the `cache` argument; the daemon's
version query `docker_client.docker_client().version()['Version']` is the
`daemon` argument, an `Except` because the query may raise.  Mirroring the
Python statement order: when the cache is unset the global is first assigned
`False`, then the daemon is queried; if the query raises, the exception
propagates with the global already latched to `False`; otherwise the global
becomes `True` exactly when the version string starts with `"swarm/"`. -/
def is_cluster_mode (cache : Option Bool) (daemon : Except String String) :
    ClusterCall :=
  match cache with
  | some b => { result := .ok b, cache := some b, queried := false }
  | none =>
      match daemon with
      | .error e => { result := .error e, cache := some false, queried := true }
      | .ok version =>
          let b := startswith version.data "swarm/".data
          { result := .ok b, cache := some b, queried := true }

/-! ### Helper lemmas about `find_container_name` -/

theorem getD_two_of_length_three (l : List String) (h : l.length = 3) :
    l.getD 2 "" = l.getLastD "" := by
  obtain ⟨a, b, c, rfl⟩ := List.length_eq_three.mp h
  rfl

theorem getD_one_of_length_two (l : List String) (h : l.length = 2) :
    l.getD 1 "" = l.getLastD "" := by
  obtain ⟨a, b, rfl⟩ := List.length_eq_two.mp h
  rfl

/-- `find_container_name` selects the first name whose slash-split length
matches the cluster-mode arity and returns the last piece of its split. -/
theorem find_container_name_eq_find (cluster : Bool) (names : List String) :
    find_container_name cluster names =
      (names.find? fun nm =>
          (split_slash nm).length == (if cluster then 3 else 2)).map
        (fun nm => (split_slash nm).getLastD "") := by
  induction names with
  | nil => cases cluster <;> rfl
  | cons name rest ih =>
      cases cluster with
      | true =>
          by_cases h : (split_slash name).length = 3
          · rw [List.find?_cons_of_pos _ (by simp [h]), Option.map_some']
            show (if (split_slash name).length = 3
                then some ((split_slash name).getD 2 "")
                else find_container_name true rest) = _
            rw [if_pos h, getD_two_of_length_three _ h]
          · rw [List.find?_cons_of_neg _ (by simp [h])]
            show (if (split_slash name).length = 3
                then some ((split_slash name).getD 2 "")
                else find_container_name true rest) = _
            rw [if_neg h, ih]
      | false =>
          by_cases h : (split_slash name).length = 2
          · rw [List.find?_cons_of_pos _ (by simp [h]), Option.map_some']
            show (if (split_slash name).length = 2
                then some ((split_slash name).getD 1 "")
                else find_container_name false rest) = _
            rw [if_pos h, getD_one_of_length_two _ h]
          · rw [List.find?_cons_of_neg _ (by simp [h])]
            show (if (split_slash name).length = 2
                then some ((split_slash name).getD 1 "")
                else find_container_name false rest) = _
            rw [if_neg h, ih]

/-! ### Claim theorems about fig/utils.py -/

/-- C1 (counterexample): in clustered mode the names `["/a/b/c"]` do not
yield `"c"` — `"/a/b/c".split('/')` has four pieces (the leading slash
contributes an empty first piece), so no name matches the arity 3 and the
helper returns absent. -/
theorem c1_counterexample :
    find_container_name true ["/a/b/c"] ≠ some "c" ∧
    find_container_name true ["/a/b/c"] = none := by
  refine ⟨?_, by decide⟩
  decide

/-- C1 (amended): `find_container_name` returns the last piece of the
slash-split of the first name whose number of split pieces is 3 in clustered
mode and 2 otherwise, where splitting counts the empty piece contributed by a
leading slash; it returns absent when no name matches.  So clustered
`["a/b/c"]` yields `"c"` and `["/a/b"]` yields `"b"`; non-clustered `["/a"]`
yields `"a"` and `["a/b"]` yields `"b"`; clustered `["/a/b/c"]` (four
pieces) and `["a/b"]` (two pieces) yield absent. -/
theorem c1_find_container_name_amended :
    (∀ (cluster : Bool) (names : List String),
        find_container_name cluster names =
          (names.find? fun nm =>
              (split_slash nm).length == (if cluster then 3 else 2)).map
            (fun nm => (split_slash nm).getLastD "")) ∧
    find_container_name true ["a/b/c"] = some "c" ∧
    find_container_name true ["/a/b"] = some "b" ∧
    find_container_name false ["/a"] = some "a" ∧
    find_container_name false ["a/b"] = some "b" ∧
    find_container_name true ["/a/b/c"] = none ∧
    find_container_name true ["a/b"] = none :=
  ⟨find_container_name_eq_find, by decide, by decide, by decide, by decide,
    by decide, by decide⟩

/-- C3: the first call to `is_cluster_mode` always leaves the module-level
cache holding a boolean, and every later call with that cache in place
returns the identical boolean without querying the daemon and without
changing the cache. -/
theorem c3_cluster_mode_cached :
    ∀ d : Except String String, ∃ b : Bool,
      (is_cluster_mode none d).cache = some b ∧
      ∀ d' : Except String String,
        is_cluster_mode (some b) d' =
          { result := .ok b, cache := some b, queried := false } := by
  intro d
  cases d with
  | error e => exact ⟨false, rfl, fun _ => rfl⟩
  | ok v => exact ⟨startswith v.data "swarm/".data, rfl, fun _ => rfl⟩

/-- C4: with an unset cache, `is_cluster_mode` returns true exactly when the
daemon's reported version string starts with `"swarm/"`, and false for every
other version string. -/
theorem c4_cluster_mode_swarm_detection :
    (∀ v : String,
        (is_cluster_mode none (.ok v)).result =
          .ok (startswith v.data "swarm/".data)) ∧
    (is_cluster_mode none (.ok "swarm/0.2.0")).result = .ok true ∧
    (is_cluster_mode none (.ok "1.7.1")).result = .ok false :=
  ⟨fun _ => rfl, rfl, rfl⟩

/-- C10: if the daemon version query raises on the first call, the exception
propagates but the module-level cache has already been latched to `false`
(the assignment precedes the query), so every subsequent call returns
`false` without querying the daemon again. -/
theorem c10_failed_detection_latched :
    ∀ (e : String) (d' : Except String String),
      (is_cluster_mode none (.error e)).result = .error e ∧
      (is_cluster_mode none (.error e)).cache = some false ∧
      (is_cluster_mode none (.error e)).queried = true ∧
      is_cluster_mode (some false) d' =
        { result := .ok false, cache := some false, queried := false } :=
  fun _ _ => ⟨rfl, rfl, rfl, rfl⟩

/-! ## Interpolation model

The interpolation engine `compose.config.interpolation` and the Environment
`compose.config.environment` are exercised by the repository's unit tests in
`tests/unit/config/interpolation_test.py` but their implementation modules
are not part of the source fragment; the definitions below are modelled from
the specification, faithful to its words, and validated against the
fixtures of those tests. -/

/-- Modelled from the spec: the Environment (module
`compose.config.environment`, missing from the source fragment) is an
ordered, case-sensitive mapping from variable name to string value; lookup
returns the first binding for the name, or absent. -/
def envLookup : List (String × String) → String → Option String
  | [], _ => none
  | (k, v) :: rest, name => if name == k then some v else envLookup rest name

/-- Modelled from the spec: resolving a variable reference looks the name up
in the Environment; an unset optional variable resolves to the empty string
(permissive substitution policy). -/
def envValue (env : List (String × String)) (acc : List Char) : List Char :=
  ((envLookup env (String.mk acc)).getD "").data

/-- A character that may start a variable name: a letter or underscore
(names must not start with a digit). -/
def isNameStart (c : Char) : Bool := c.isAlpha || c == '_'

/-- A character that may continue a variable name: alphanumeric or
underscore. -/
def isNameChar (c : Char) : Bool := c.isAlphanum || c == '_'

/-- A valid variable name: one or more alphanumeric/underscore characters,
not starting with a digit. -/
def validName : List Char → Bool
  | [] => false
  | c :: rest => isNameStart c && rest.all isNameChar

/-- Modelled from the spec: captured command output has a single trailing
newline stripped, if present. -/
def stripTrailingNewline (s : String) : String :=
  match s.data.reverse with
  | '\n' :: rest => String.mk rest.reverse
  | _ => s

/-- State of the left-to-right scan of one string scalar: scanning plain
text, just after `$`, inside a `$NAME` reference, inside a `$\x7bNAME\x7d`
reference, after `$(`, inside a `$(( command ))` reference, or inside such a
reference just after a `)`. -/
inductive ScanState where
  | normal
  | dollar
  | name (acc : List Char)
  | brace (acc : List Char)
  | paren1
  | cmd (acc : List Char)
  | cmdClose (acc : List Char)

/-- Modelled from the spec (module `compose.config.interpolation`, missing
from the source fragment): scan a string scalar left to right; `$NAME` and
`$\x7bNAME\x7d` resolve through the Environment (empty string when unset),
`$$` resolves to a literal `$`, `$(( command ))` executes the command through
the shell capability — on a non-POSIX platform this form is a hard error,
and a command that cannot be run or exits non-zero is a ConfigurationError —
and any other use of `$` (including an unknown brace form or an unterminated
reference) is a ConfigurationError.  Errors are the `Except.error` case. -/
def scanChars (env : List (String × String)) (shell : String → Option String)
    (posix : Bool) : ScanState → List Char → Except String (List Char)
  | .normal, [] => .ok []
  | .normal, c :: rest =>
      if c == '$' then scanChars env shell posix .dollar rest
      else (c :: ·) <$> scanChars env shell posix .normal rest
  | .dollar, [] => .error "Invalid interpolation format"
  | .dollar, c :: rest =>
      if c == '$' then ('$' :: ·) <$> scanChars env shell posix .normal rest
      else if c == '{' then scanChars env shell posix (.brace []) rest
      else if c == '(' then scanChars env shell posix .paren1 rest
      else if isNameStart c then scanChars env shell posix (.name [c]) rest
      else .error "Invalid interpolation format"
  | .name acc, [] => .ok (envValue env acc)
  | .name acc, c :: rest =>
      if isNameChar c then scanChars env shell posix (.name (acc ++ [c])) rest
      else if c == '$' then
        (envValue env acc ++ ·) <$> scanChars env shell posix .dollar rest
      else
        (fun t => envValue env acc ++ c :: t) <$>
          scanChars env shell posix .normal rest
  | .brace _, [] => .error "Invalid interpolation format"
  | .brace acc, c :: rest =>
      if c == '}' then
        if validName acc then
          (envValue env acc ++ ·) <$> scanChars env shell posix .normal rest
        else .error "Invalid interpolation reference"
      else scanChars env shell posix (.brace (acc ++ [c])) rest
  | .paren1, [] => .error "Invalid interpolation format"
  | .paren1, c :: rest =>
      if c == '(' then scanChars env shell posix (.cmd []) rest
      else .error "Invalid interpolation format"
  | .cmd _, [] => .error "Invalid interpolation format"
  | .cmd acc, c :: rest =>
      if c == ')' then scanChars env shell posix (.cmdClose acc) rest
      else scanChars env shell posix (.cmd (acc ++ [c])) rest
  | .cmdClose _, [] => .error "Invalid interpolation format"
  | .cmdClose acc, c :: rest =>
      if c == ')' then
        if posix then
          match shell (String.mk acc) with
          | some out =>
              ((stripTrailingNewline out).data ++ ·) <$>
                scanChars env shell posix .normal rest
          | none => .error "command execution failed"
        else .error "command substitution unsupported on this platform"
      else scanChars env shell posix (.cmd (acc ++ [')'] ++ [c])) rest

/-- Modelled from the spec: fully resolve all substitution references of one
string scalar, or fail with a ConfigurationError. -/
def interpolate_string (env : List (String × String))
    (shell : String → Option String) (posix : Bool) (s : String) :
    Except String String :=
  String.mk <$> scanChars env shell posix .normal s.data

example :
    interpolate_string [("FOO", "bar")] (fun _ => none) true "a$FOO:/x" =
      .ok "abar:/x" := rfl
example :
    interpolate_string [("FOO", "bar")] (fun _ => none) true "a$\x7bFOO\x7d:/x" =
      .ok "abar:/x" := rfl
example :
    interpolate_string [] (fun _ => none) true "a$$b" = .ok "a$b" := rfl
example :
    interpolate_string [] (fun _ => none) true "a$UNSET!" = .ok "a!" := rfl
example :
    interpolate_string [] (fun c => if c == "echo hi" then some "hi\n" else none)
      true "x$((echo hi))y" = .ok "xhiy" := rfl
example :
    interpolate_string [] (fun _ => none) true "x$((bad))y" =
      .error "command execution failed" := rfl
example :
    interpolate_string [] (fun c => if c == "bad" then some "z" else none)
      false "x$((bad))y" =
      .error "command substitution unsupported on this platform" := rfl

mutual
/-- A configuration node: the recursive sum type of the spec's data model —
a string, number, boolean or null scalar, an ordered string-keyed mapping,
or a sequence.  `Fields` and `ValueList` are the spine of mappings and
sequences. -/
inductive Value where
  | str (s : String)
  | num (n : Int)
  | bool (b : Bool)
  | null
  | map (fields : Fields)
  | seq (elems : ValueList)
inductive Fields where
  | fnil
  | fcons (key : String) (value : Value) (rest : Fields)
inductive ValueList where
  | vnil
  | vcons (head : Value) (tail : ValueList)
end

mutual
/-- Modelled from the spec: depth-first traversal of a configuration
subtree — mappings keep their keys with each value interpolated, sequences
keep their order, string scalars are rewritten by `interpolate_string`, and
non-string scalars (numbers, booleans, null) are returned unchanged.  Any
failure propagates, so no partial tree is produced. -/
def interpValue (env : List (String × String))
    (shell : String → Option String) (posix : Bool) :
    Value → Except String Value
  | .str s =>
      match interpolate_string env shell posix s with
      | .error e => .error e
      | .ok s' => .ok (.str s')
  | .num n => .ok (.num n)
  | .bool b => .ok (.bool b)
  | .null => .ok .null
  | .map fs =>
      match interpFields env shell posix fs with
      | .error e => .error e
      | .ok fs' => .ok (.map fs')
  | .seq vs =>
      match interpList env shell posix vs with
      | .error e => .error e
      | .ok vs' => .ok (.seq vs')
def interpFields (env : List (String × String))
    (shell : String → Option String) (posix : Bool) :
    Fields → Except String Fields
  | .fnil => .ok .fnil
  | .fcons k v rest =>
      match interpValue env shell posix v with
      | .error e => .error e
      | .ok v' =>
          match interpFields env shell posix rest with
          | .error e => .error e
          | .ok rest' => .ok (.fcons k v' rest')
def interpList (env : List (String × String))
    (shell : String → Option String) (posix : Bool) :
    ValueList → Except String ValueList
  | .vnil => .ok .vnil
  | .vcons v rest =>
      match interpValue env shell posix v with
      | .error e => .error e
      | .ok v' =>
          match interpList env shell posix rest with
          | .error e => .error e
          | .ok rest' => .ok (.vcons v' rest')
end

/-- Modelled from the spec: the section kinds whose top-level entries may be
declared with no body (shorthand), e.g. a volume or network entry written as
a bare key; for these a null entry means "use defaults". -/
def section_supports_shorthand (kind : String) : Bool :=
  kind == "volume" || kind == "network"

/-- Modelled from the spec: the null-normalization rule — a null value
directly under the top-level mapping of a shorthand-supporting section kind
is rewritten to an empty mapping; every other value is left to the ordinary
traversal. -/
def normalizeEntry (kind : String) : Value → Value
  | .null => if section_supports_shorthand kind then .map .fnil else .null
  | v => v

/-- Modelled from the spec: interpolate the entries of one top-level
section, applying the null-normalization rule at the entry level. -/
def interpDoc (env : List (String × String))
    (shell : String → Option String) (posix : Bool) (kind : String) :
    Fields → Except String Fields
  | .fnil => .ok .fnil
  | .fcons k v rest =>
      match interpValue env shell posix (normalizeEntry kind v) with
      | .error e => .error e
      | .ok v' =>
          match interpDoc env shell posix kind rest with
          | .error e => .error e
          | .ok rest' => .ok (.fcons k v' rest')

/-- Modelled from the spec: the public contract
`interpolate_environment_variables(config, section, environment)` of module
`compose.config.interpolation` (missing from the source fragment), called
once per top-level section; the shell capability and the POSIX-platform flag
are explicit parameters here. -/
def interpolate_environment_variables (doc : Fields) (kind : String)
    (env : List (String × String)) (shell : String → Option String)
    (posix : Bool) : Except String Fields :=
  interpDoc env shell posix kind doc

/-- One step of a path into a configuration tree: a mapping key or a
sequence index. -/
inductive PathElem where
  | key (k : String)
  | idx (i : Nat)

/-- First binding of a key in a mapping's fields. -/
def lookupFields : Fields → String → Option Value
  | .fnil, _ => none
  | .fcons k v rest, name => if name == k then some v else lookupFields rest name

/-- Element of a sequence at an index. -/
def getIdx : ValueList → Nat → Option Value
  | .vnil, _ => none
  | .vcons v _, 0 => some v
  | .vcons _ rest, i + 1 => getIdx rest i

/-- The node of a configuration tree at a path, if the path exists. -/
def atPath : Value → List PathElem → Option Value
  | v, [] => some v
  | .map fs, .key k :: p =>
      match lookupFields fs k with
      | some w => atPath w p
      | none => none
  | .seq vs, .idx i :: p =>
      match getIdx vs i with
      | some w => atPath w p
      | none => none
  | _, _ :: _ => none

/-- A string with no dollar sign contains no substitution reference. -/
def noDollar (s : String) : Bool := s.data.all (fun c => c != '$')

mutual
/-- A configuration tree is reference-free when none of its string scalars
contains a dollar sign. -/
def valueDollarFree : Value → Bool
  | .str s => noDollar s
  | .num _ => true
  | .bool _ => true
  | .null => true
  | .map fs => fieldsDollarFree fs
  | .seq vs => listDollarFree vs
def fieldsDollarFree : Fields → Bool
  | .fnil => true
  | .fcons _ v rest => valueDollarFree v && fieldsDollarFree rest
def listDollarFree : ValueList → Bool
  | .vnil => true
  | .vcons v rest => valueDollarFree v && listDollarFree rest
end

/-- Whether a node is the null scalar. -/
def isNullValue : Value → Bool
  | .null => true
  | _ => false

/-- No entry directly under the top-level mapping is null. -/
def topNullFree : Fields → Bool
  | .fnil => true
  | .fcons _ v rest => !isNullValue v && topNullFree rest

/-- Non-string scalars: numbers, booleans and null. -/
def atomLike : Value → Bool
  | .num _ => true
  | .bool _ => true
  | .null => true
  | _ => false

/-! ## Fixtures from tests/unit/config/interpolation_test.py -/

/-- The Environment of the unit tests: `USER=jenny`, `FOO=bar`. -/
def mockEnv : List (String × String) := [("USER", "jenny"), ("FOO", "bar")]

/-- A shell capability on which every command fails; the variable-only
fixtures never reach it. -/
def noShell : String → Option String := fun _ => none

/-- Modelled from the spec: the POSIX shell behaviour needed by the command
fixtures — `echo "W"` prints `W` and a newline; any other command (such as
`this is a bad command`) fails. -/
def testShell (c : String) : Option String :=
  if c == "echo \"FOO\"" then some "FOO\n"
  else if c == "echo \"BAR\"" then some "BAR\n"
  else if c == "echo \"BAZ\"" then some "BAZ\n"
  else if c == "echo \"QUX\"" then some "QUX\n"
  else none

/-- `services` input of `test_interpolate_environment_variables_in_services`. -/
def servicesDoc : Fields :=
  .fcons "servicea"
    (.map
      (.fcons "image" (.str "example:$\x7bUSER\x7d")
        (.fcons "volumes" (.seq (.vcons (.str "$FOO:/target") .vnil))
          (.fcons "logging"
            (.map
              (.fcons "driver" (.str "$\x7bFOO\x7d")
                (.fcons "options"
                  (.map (.fcons "user" (.str "$USER") .fnil)) .fnil)))
            .fnil))))
    .fnil

/-- `expected` output of `test_interpolate_environment_variables_in_services`. -/
def servicesExpected : Fields :=
  .fcons "servicea"
    (.map
      (.fcons "image" (.str "example:jenny")
        (.fcons "volumes" (.seq (.vcons (.str "bar:/target") .vnil))
          (.fcons "logging"
            (.map
              (.fcons "driver" (.str "bar")
                (.fcons "options"
                  (.map (.fcons "user" (.str "jenny") .fnil)) .fnil)))
            .fnil))))
    .fnil

/-- `volumes` input of `test_interpolate_environment_variables_in_volumes`. -/
def volumesDoc : Fields :=
  .fcons "data"
    (.map
      (.fcons "driver" (.str "$FOO")
        (.fcons "driver_opts"
          (.map
            (.fcons "max" (.num 2)
              (.fcons "user" (.str "$\x7bUSER\x7d") .fnil)))
          .fnil)))
    (.fcons "other" .null .fnil)

/-- `expected` output of `test_interpolate_environment_variables_in_volumes`. -/
def volumesExpected : Fields :=
  .fcons "data"
    (.map
      (.fcons "driver" (.str "bar")
        (.fcons "driver_opts"
          (.map
            (.fcons "max" (.num 2)
              (.fcons "user" (.str "jenny") .fnil)))
          .fnil)))
    (.fcons "other" (.map .fnil) .fnil)

/-- `services` input of `test_interpolate_command`. -/
def commandDoc : Fields :=
  .fcons "servicea"
    (.map
      (.fcons "image" (.str "example:$((echo \"FOO\"))")
        (.fcons "volumes" (.seq (.vcons (.str "$((echo \"BAR\")):/target") .vnil))
          (.fcons "logging"
            (.map
              (.fcons "driver" (.str "$((echo \"BAZ\"))")
                (.fcons "options"
                  (.map (.fcons "user" (.str "$((echo \"QUX\"))") .fnil)) .fnil)))
            .fnil))))
    .fnil

/-- `expected` output of `test_interpolate_command`. -/
def commandExpected : Fields :=
  .fcons "servicea"
    (.map
      (.fcons "image" (.str "example:FOO")
        (.fcons "volumes" (.seq (.vcons (.str "BAR:/target") .vnil))
          (.fcons "logging"
            (.map
              (.fcons "driver" (.str "BAZ")
                (.fcons "options"
                  (.map (.fcons "user" (.str "QUX") .fnil)) .fnil)))
            .fnil))))
    .fnil

/-- `services` input of `test_interpolate_bad_command`: the nested
`logging.options.user` value holds the malformed `$((this is a bad command))`. -/
def badCommandDoc : Fields :=
  .fcons "servicea"
    (.map
      (.fcons "image" (.str "example:$((echo \"FOO\"))")
        (.fcons "volumes" (.seq (.vcons (.str "$((echo \"BAR\")):/target") .vnil))
          (.fcons "logging"
            (.map
              (.fcons "driver" (.str "$((echo \"BAZ\"))")
                (.fcons "options"
                  (.map (.fcons "user" (.str "$((this is a bad command))") .fnil))
                  .fnil)))
            .fnil))))
    .fnil

example :
    interpolate_environment_variables servicesDoc "service" mockEnv noShell
      true = .ok servicesExpected := rfl

example :
    interpolate_environment_variables volumesDoc "volume" mockEnv noShell
      true = .ok volumesExpected := rfl

example :
    interpolate_environment_variables commandDoc "service" mockEnv testShell
      true = .ok commandExpected := rfl

example :
    interpolate_environment_variables badCommandDoc "service" mockEnv testShell
      true = .error "command execution failed" := rfl

/-! ## Scanner lemmas -/

theorem char_beq_false_of_ne {c d : Char} (h : c ≠ d) : (c == d) = false := by
  simpa using h

theorem nameStart_ne_dollar {c : Char} (h : isNameStart c = true) :
    (c == '$') = false := by
  apply char_beq_false_of_ne; rintro rfl; exact absurd h (by decide)

theorem nameStart_ne_lbrace {c : Char} (h : isNameStart c = true) :
    (c == '{') = false := by
  apply char_beq_false_of_ne; rintro rfl; exact absurd h (by decide)

theorem nameStart_ne_lparen {c : Char} (h : isNameStart c = true) :
    (c == '(') = false := by
  apply char_beq_false_of_ne; rintro rfl; exact absurd h (by decide)

theorem nameChar_ne_rbrace {c : Char} (h : isNameChar c = true) :
    (c == '}') = false := by
  apply char_beq_false_of_ne; rintro rfl; exact absurd h (by decide)

/-- Scanning plain text with no dollar sign returns it unchanged. -/
theorem scan_normal_no_dollar (env : List (String × String))
    (shell : String → Option String) (posix : Bool) :
    ∀ cs : List Char, (∀ c ∈ cs, (c == '$') = false) →
      scanChars env shell posix .normal cs = .ok cs := by
  intro cs
  induction cs with
  | nil => intro _; rfl
  | cons c rest ih =>
      intro h
      have hc := h c (List.mem_cons_self c rest)
      rw [scanChars, hc]
      simp only [if_false, Bool.false_eq_true]
      rw [ih (fun d hd => h d (List.mem_cons_of_mem c hd))]
      rfl

/-- Consuming the remaining characters of a `$NAME` reference. -/
theorem scan_name_all (env : List (String × String))
    (shell : String → Option String) (posix : Bool) :
    ∀ (cs acc : List Char), cs.all isNameChar = true →
      scanChars env shell posix (.name acc) cs =
        .ok (envValue env (acc ++ cs)) := by
  intro cs
  induction cs with
  | nil => intro acc _; simp [scanChars]
  | cons c rest ih =>
      intro acc h
      rw [List.all_cons, Bool.and_eq_true] at h
      rw [scanChars, h.1]
      simp only [if_true]
      rw [ih (acc ++ [c]) h.2, List.append_assoc]
      rfl

/-- Consuming the name characters of a `$\x7bNAME\x7d` reference. -/
theorem scan_brace_consume (env : List (String × String))
    (shell : String → Option String) (posix : Bool) :
    ∀ (cs acc l : List Char), cs.all isNameChar = true →
      scanChars env shell posix (.brace acc) (cs ++ l) =
        scanChars env shell posix (.brace (acc ++ cs)) l := by
  intro cs
  induction cs with
  | nil => intro acc l _; simp
  | cons c rest ih =>
      intro acc l h
      rw [List.all_cons, Bool.and_eq_true] at h
      rw [List.cons_append, scanChars, nameChar_ne_rbrace h.1]
      simp only [if_false, Bool.false_eq_true]
      rw [ih (acc ++ [c]) l h.2, List.append_assoc]
      rfl

/-- Consuming the command characters of a `$(( command ))` reference. -/
theorem scan_cmd_consume (env : List (String × String))
    (shell : String → Option String) (posix : Bool) :
    ∀ (cs acc l : List Char), (∀ c ∈ cs, (c == ')') = false) →
      scanChars env shell posix (.cmd acc) (cs ++ l) =
        scanChars env shell posix (.cmd (acc ++ cs)) l := by
  intro cs
  induction cs with
  | nil => intro acc l _; simp
  | cons c rest ih =>
      intro acc l h
      rw [List.cons_append, scanChars, h c (List.mem_cons_self c rest)]
      simp only [if_false, Bool.false_eq_true]
      rw [ih (acc ++ [c]) l (fun d hd => h d (List.mem_cons_of_mem c hd)),
        List.append_assoc]
      rfl

theorem string_mk_data (s : String) : String.mk s.data = s := by
  cases s; rfl

/-- C8: a variable name bound in the Environment resolves to the same
substituted value through both reference forms, `$NAME` and
`$\x7bNAME\x7d`. -/
theorem c8_dollar_brace_agree (env : List (String × String))
    (shell : String → Option String) (posix : Bool) (nm v : String)
    (h1 : validName nm.data = true)
    (h2 : envLookup env nm = some v) :
    interpolate_string env shell posix ("$" ++ nm) = .ok v ∧
    interpolate_string env shell posix ("$\x7b" ++ nm ++ "\x7d") = .ok v := by
  obtain ⟨c, rest, hcr⟩ : ∃ c rest, nm.data = c :: rest := by
    cases hnm : nm.data with
    | nil => rw [hnm] at h1; exact absurd h1 (by decide)
    | cons c rest => exact ⟨c, rest, rfl⟩
  rw [hcr] at h1
  rw [validName, Bool.and_eq_true] at h1
  have hstart : isNameStart c = true := h1.1
  have hrest : rest.all isNameChar = true := h1.2
  have hev : envValue env (c :: rest) = v.data := by
    rw [← hcr]
    unfold envValue
    rw [string_mk_data, h2]
    rfl
  constructor
  · have hd : ("$" ++ nm).data = '$' :: c :: rest := by
      rw [String.data_append, hcr]; rfl
    unfold interpolate_string
    rw [hd, scanChars]
    simp only [beq_self_eq_true, if_true]
    rw [scanChars, nameStart_ne_dollar hstart, nameStart_ne_lbrace hstart,
      nameStart_ne_lparen hstart]
    simp only [if_false, Bool.false_eq_true, hstart, if_true]
    rw [scan_name_all env shell posix rest [c] hrest]
    show Except.ok (String.mk (envValue env (c :: rest))) = .ok v
    rw [hev, string_mk_data]
  · have hd : ("$\x7b" ++ nm ++ "\x7d").data =
        '$' :: '{' :: ((c :: rest) ++ ['}']) := by
      rw [String.data_append, String.data_append, hcr]; rfl
    unfold interpolate_string
    rw [hd, scanChars]
    simp only [beq_self_eq_true, if_true]
    rw [scanChars]
    simp only [show (('{' : Char) == '$') = false from by decide,
      Bool.false_eq_true, if_false, beq_self_eq_true, if_true]
    rw [scan_brace_consume env shell posix (c :: rest) [] ['}']
      (by rw [List.all_cons, Bool.and_eq_true]
          exact ⟨by
            rw [isNameChar]
            rw [isNameStart, Bool.or_eq_true] at hstart
            rcases hstart with h | h
            · rw [Char.isAlphanum, h]; rfl
            · rw [h]; simp
          , hrest⟩)]
    rw [scanChars]
    simp only [beq_self_eq_true, if_true, List.nil_append]
    rw [show validName (c :: rest) = true from by
      rw [validName, Bool.and_eq_true]; exact ⟨hstart, hrest⟩]
    simp only [if_true]
    rw [scanChars]
    show Except.ok (String.mk (envValue env (c :: rest) ++ [])) = .ok v
    rw [List.append_nil, hev, string_mk_data]

/-- C2: a command reference `$(( command ))` on a POSIX platform executes
the command, strips a single trailing newline from its captured standard
output, and substitutes the text; a command that cannot be run or exits
non-zero makes interpolation fail with a ConfigurationError, and because the
result is all-or-nothing (`Except`), the caller observes no partial
document.  The last two conjuncts replay the `test_interpolate_command` and
`test_interpolate_bad_command` fixtures end to end. -/
theorem c2_command_references (env : List (String × String))
    (shell : String → Option String) (cmd out : String)
    (hc : ∀ c ∈ cmd.data, (c == ')') = false) :
    (shell cmd = some out →
      interpolate_string env shell true ("$((" ++ cmd ++ "))") =
        .ok (stripTrailingNewline out)) ∧
    (shell cmd = none →
      interpolate_string env shell true ("$((" ++ cmd ++ "))") =
        .error "command execution failed") ∧
    interpolate_environment_variables commandDoc "service" mockEnv testShell
      true = .ok commandExpected ∧
    interpolate_environment_variables badCommandDoc "service" mockEnv testShell
      true = .error "command execution failed" := by
  have hd : ("$((" ++ cmd ++ "))").data =
      '$' :: '(' :: '(' :: (cmd.data ++ [')', ')']) := by
    rw [String.data_append, String.data_append]; rfl
  have hscan : scanChars env shell true .normal (("$((" ++ cmd ++ "))").data) =
      scanChars env shell true (.cmdClose cmd.data) [')'] := by
    rw [hd, scanChars]
    simp only [beq_self_eq_true, if_true]
    rw [scanChars]
    simp only [show (('(' : Char) == '$') = false from by decide,
      show (('(' : Char) == '{') = false from by decide,
      beq_self_eq_true, Bool.false_eq_true, if_false, if_true]
    rw [scanChars]
    simp only [beq_self_eq_true, if_true]
    rw [show cmd.data ++ [')', ')'] = cmd.data ++ (')' :: [')']) from rfl,
      scan_cmd_consume env shell true cmd.data [] (')' :: [')']) hc]
    rw [scanChars]
    simp only [List.nil_append, beq_self_eq_true, if_true]
  refine ⟨?_, ?_, rfl, rfl⟩
  · intro hs
    unfold interpolate_string
    rw [hscan, scanChars]
    simp only [beq_self_eq_true, if_true]
    rw [string_mk_data, hs]
    show Except.ok (String.mk ((stripTrailingNewline out).data ++ [])) = _
    rw [List.append_nil, string_mk_data]
  · intro hs
    unfold interpolate_string
    rw [hscan, scanChars]
    simp only [beq_self_eq_true, if_true]
    rw [string_mk_data, hs]
    rfl

/-- Witness for C2: with the modelled POSIX shell, `$((echo "FOO"))`
substitutes `FOO` (newline stripped) and the malformed
`$((this is a bad command))` raises a ConfigurationError. -/
theorem c2_witness :
    interpolate_string mockEnv testShell true
      ("$((" ++ "echo \"FOO\"" ++ "))") = .ok (stripTrailingNewline "FOO\n") ∧
    interpolate_string mockEnv testShell true
      ("$((" ++ "this is a bad command" ++ "))") =
      .error "command execution failed" :=
  ⟨(c2_command_references mockEnv testShell "echo \"FOO\"" "FOO\n"
      (by decide)).1 rfl,
   (c2_command_references mockEnv testShell "this is a bad command" ""
      (by decide)).2.1 rfl⟩

/-- Witness for C8: with `FOO=bar` in the Environment, both `$FOO` and
`$\x7bFOO\x7d` resolve to `bar`. -/
theorem c8_witness :
    interpolate_string mockEnv noShell true ("$" ++ "FOO") = .ok "bar" ∧
    interpolate_string mockEnv noShell true ("$\x7b" ++ "FOO" ++ "\x7d") =
      .ok "bar" :=
  c8_dollar_brace_agree mockEnv noShell true "FOO" "bar" (by decide) rfl

/-! ## Identity on reference-free documents -/

/-- A string scalar with no dollar sign is returned unchanged. -/
theorem interpolate_string_no_dollar (env : List (String × String))
    (shell : String → Option String) (posix : Bool) (s : String)
    (h : noDollar s = true) : interpolate_string env shell posix s = .ok s := by
  have h' : ∀ c ∈ s.data, (c == '$') = false := by
    rw [noDollar, List.all_eq_true] at h
    intro c hc
    exact char_beq_false_of_ne (by simpa using h c hc)
  unfold interpolate_string
  rw [scan_normal_no_dollar env shell posix s.data h']
  show Except.ok (String.mk s.data) = .ok s
  rw [string_mk_data]

mutual
/-- Interpolation is the identity on a reference-free subtree. -/
theorem interpValue_id (env : List (String × String))
    (shell : String → Option String) (posix : Bool) :
    ∀ v : Value, valueDollarFree v = true →
      interpValue env shell posix v = .ok v
  | .str s, h => by
      rw [show valueDollarFree (.str s) = noDollar s from rfl] at h
      simp only [interpValue, interpolate_string_no_dollar env shell posix s h]
  | .num _, _ => rfl
  | .bool _, _ => rfl
  | .null, _ => rfl
  | .map fs, h => by
      rw [show valueDollarFree (.map fs) = fieldsDollarFree fs from rfl] at h
      simp only [interpValue, interpFields_id env shell posix fs h]
  | .seq vs, h => by
      rw [show valueDollarFree (.seq vs) = listDollarFree vs from rfl] at h
      simp only [interpValue, interpList_id env shell posix vs h]
theorem interpFields_id (env : List (String × String))
    (shell : String → Option String) (posix : Bool) :
    ∀ fs : Fields, fieldsDollarFree fs = true →
      interpFields env shell posix fs = .ok fs
  | .fnil, _ => rfl
  | .fcons k v rest, h => by
      rw [show fieldsDollarFree (.fcons k v rest) =
          (valueDollarFree v && fieldsDollarFree rest) from rfl,
        Bool.and_eq_true] at h
      simp only [interpFields, interpValue_id env shell posix v h.1,
        interpFields_id env shell posix rest h.2]
theorem interpList_id (env : List (String × String))
    (shell : String → Option String) (posix : Bool) :
    ∀ vs : ValueList, listDollarFree vs = true →
      interpList env shell posix vs = .ok vs
  | .vnil, _ => rfl
  | .vcons v rest, h => by
      rw [show listDollarFree (.vcons v rest) =
          (valueDollarFree v && listDollarFree rest) from rfl,
        Bool.and_eq_true] at h
      simp only [interpList, interpValue_id env shell posix v h.1,
        interpList_id env shell posix rest h.2]
end

/-- The null-normalization rule leaves every non-null entry alone. -/
theorem normalizeEntry_non_null (kind : String) (v : Value)
    (h : isNullValue v = false) : normalizeEntry kind v = v := by
  cases v <;> first | rfl | exact absurd h (by simp [isNullValue])

/-- A reference-free section whose top-level entries are non-null (or whose
kind does not support shorthand) is interpolated to itself. -/
theorem interpDoc_id (env : List (String × String))
    (shell : String → Option String) (posix : Bool) (kind : String) :
    ∀ doc : Fields, fieldsDollarFree doc = true →
      (section_supports_shorthand kind = false ∨ topNullFree doc = true) →
      interpDoc env shell posix kind doc = .ok doc
  | .fnil, _, _ => rfl
  | .fcons k v rest, h1, h2 => by
      rw [show fieldsDollarFree (.fcons k v rest) =
          (valueDollarFree v && fieldsDollarFree rest) from rfl,
        Bool.and_eq_true] at h1
      have hnorm : normalizeEntry kind v = v := by
        rcases h2 with h2 | h2
        · cases v <;> simp [normalizeEntry, h2]
        · rw [show topNullFree (.fcons k v rest) =
              (!isNullValue v && topNullFree rest) from rfl,
            Bool.and_eq_true] at h2
          exact normalizeEntry_non_null kind v (by simpa using h2.1)
      have h2' : section_supports_shorthand kind = false ∨
          topNullFree rest = true := by
        rcases h2 with h2 | h2
        · exact Or.inl h2
        · rw [show topNullFree (.fcons k v rest) =
              (!isNullValue v && topNullFree rest) from rfl,
            Bool.and_eq_true] at h2
          exact Or.inr h2.2
      simp only [interpDoc, hnorm, interpValue_id env shell posix v h1.1,
        interpDoc_id env shell posix kind rest h1.2 h2']

/-- C5: with the Environment `USER=jenny, FOO=bar`, the service fixture of
`test_interpolate_environment_variables_in_services` is interpolated exactly
to its expected output — variable references are resolved in mapping values,
sequence elements and nested mappings, and the tree shape is preserved. -/
theorem c5_services_fixture :
    interpolate_environment_variables servicesDoc "service" mockEnv noShell
      true = .ok servicesExpected := rfl

/-- C9 (counterexample): interpolation is not the identity on every
reference-free document — `\x7bother: null\x7d` under the shorthand-supporting
`volume` section kind contains no substitution reference, yet its null entry
is rewritten to an empty mapping. -/
theorem c9_counterexample :
    interpolate_environment_variables (.fcons "other" .null .fnil) "volume"
      mockEnv noShell true ≠ .ok (.fcons "other" .null .fnil) := by
  intro h
  have h0 : interpolate_environment_variables (.fcons "other" .null .fnil)
      "volume" mockEnv noShell true =
      .ok (.fcons "other" (.map .fnil) .fnil) := rfl
  rw [h0] at h
  injection h with h1
  injection h1 with hk hv hr
  exact Value.noConfusion hv

/-- C9 (amended): on a reference-free document, interpolation is the
identity provided the section kind does not support shorthand entries or no
entry directly under the top-level mapping is null (top-level nulls of
shorthand-supporting kinds are the one exception: they become empty
mappings). -/
theorem c9_identity_amended (doc : Fields) (kind : String)
    (env : List (String × String)) (shell : String → Option String)
    (posix : Bool) (h1 : fieldsDollarFree doc = true)
    (h2 : section_supports_shorthand kind = false ∨ topNullFree doc = true) :
    interpolate_environment_variables doc kind env shell posix = .ok doc :=
  interpDoc_id env shell posix kind doc h1 h2

/-- Witness for C9: a reference-free volume section with a non-null entry is
returned unchanged. -/
theorem c9_witness :
    interpolate_environment_variables
      (.fcons "data" (.map (.fcons "driver" (.str "local") .fnil)) .fnil)
      "volume" mockEnv noShell true =
      .ok (.fcons "data" (.map (.fcons "driver" (.str "local") .fnil)) .fnil) :=
  c9_identity_amended
    (.fcons "data" (.map (.fcons "driver" (.str "local") .fnil)) .fnil)
    "volume" mockEnv noShell true (by decide) (Or.inr (by decide))

/-! ## Preservation of non-string scalars at every nesting depth -/

/-- Keys of a mapping survive interpolation: the interpolated fields bind
the same key to the interpolation of its old value. -/
theorem interpFields_lookup (env : List (String × String))
    (shell : String → Option String) (posix : Bool) (k : String) :
    ∀ (fs fs' : Fields) (w : Value),
      interpFields env shell posix fs = .ok fs' →
      lookupFields fs k = some w →
      ∃ w', interpValue env shell posix w = .ok w' ∧
        lookupFields fs' k = some w'
  | .fnil, _, _, _, hl => by
      rw [lookupFields] at hl
      exact Option.noConfusion hl
  | .fcons k0 v rest, fs', w, hf, hl => by
      cases hv : interpValue env shell posix v with
      | error e =>
          simp only [interpFields, hv] at hf
          exact Except.noConfusion hf
      | ok v' =>
          cases hr : interpFields env shell posix rest with
          | error e =>
              simp only [interpFields, hv, hr] at hf
              exact Except.noConfusion hf
          | ok rest' =>
              simp only [interpFields, hv, hr, Except.ok.injEq] at hf
              subst hf
              rw [lookupFields] at hl
              by_cases hk : (k == k0) = true
              · rw [if_pos hk] at hl
                injection hl with hl
                subst hl
                exact ⟨v', hv, by rw [lookupFields, if_pos hk]⟩
              · rw [if_neg hk] at hl
                obtain ⟨w', hw', hlk⟩ :=
                  interpFields_lookup env shell posix k rest rest' w hr hl
                exact ⟨w', hw', by rw [lookupFields, if_neg hk]; exact hlk⟩

/-- Indices of a sequence survive interpolation. -/
theorem interpList_getIdx (env : List (String × String))
    (shell : String → Option String) (posix : Bool) :
    ∀ (vs vs' : ValueList) (i : Nat) (w : Value),
      interpList env shell posix vs = .ok vs' →
      getIdx vs i = some w →
      ∃ w', interpValue env shell posix w = .ok w' ∧ getIdx vs' i = some w'
  | .vnil, _, _, _, _, hl => by
      rw [getIdx] at hl
      exact Option.noConfusion hl
  | .vcons v rest, vs', i, w, hf, hl => by
      cases hv : interpValue env shell posix v with
      | error e =>
          simp only [interpList, hv] at hf
          exact Except.noConfusion hf
      | ok v' =>
          cases hr : interpList env shell posix rest with
          | error e =>
              simp only [interpList, hv, hr] at hf
              exact Except.noConfusion hf
          | ok rest' =>
              simp only [interpList, hv, hr, Except.ok.injEq] at hf
              subst hf
              cases i with
              | zero =>
                  rw [getIdx] at hl
                  injection hl with hl
                  subst hl
                  exact ⟨v', hv, rfl⟩
              | succ j =>
                  rw [getIdx] at hl
                  obtain ⟨w', hw', hlk⟩ :=
                    interpList_getIdx env shell posix rest rest' j w hr hl
                  exact ⟨w', hw', hlk⟩

/-- A non-string scalar (number, boolean or null) found at any path of a
subtree is still there, unchanged, after interpolation of the subtree. -/
theorem interp_preserves_atom (env : List (String × String))
    (shell : String → Option String) (posix : Bool) :
    ∀ (p : List PathElem) (v v' a : Value),
      interpValue env shell posix v = .ok v' →
      atPath v p = some a → atomLike a = true →
      atPath v' p = some a := by
  intro p
  induction p with
  | nil =>
      intro v v' a hv hp ha
      rw [atPath] at hp
      injection hp with hp
      subst hp
      cases v with
      | str s => exact Bool.noConfusion ha
      | num n =>
          rw [show interpValue env shell posix (.num n) = .ok (.num n)
            from rfl] at hv
          injection hv with hv
          rw [← hv, atPath]
      | bool b =>
          rw [show interpValue env shell posix (.bool b) = .ok (.bool b)
            from rfl] at hv
          injection hv with hv
          rw [← hv, atPath]
      | null =>
          rw [show interpValue env shell posix .null = .ok .null
            from rfl] at hv
          injection hv with hv
          rw [← hv, atPath]
      | map fs => exact Bool.noConfusion ha
      | seq vs => exact Bool.noConfusion ha
  | cons e p ih =>
      intro v v' a hv hp ha
      cases e with
      | key k =>
          cases v with
          | map fs =>
              simp only [atPath] at hp
              cases hw : lookupFields fs k with
              | none => rw [hw] at hp; exact Option.noConfusion hp
              | some w =>
                  rw [hw] at hp
                  cases hfs : interpFields env shell posix fs with
                  | error e' =>
                      simp only [interpValue, hfs] at hv
                      exact Except.noConfusion hv
                  | ok fs' =>
                      simp only [interpValue, hfs, Except.ok.injEq] at hv
                      subst hv
                      obtain ⟨w', hw', hlk⟩ :=
                        interpFields_lookup env shell posix k fs fs' w hfs hw
                      simp only [atPath, hlk]
                      exact ih w w' a hw' hp ha
          | str s => exact Option.noConfusion hp
          | num n => exact Option.noConfusion hp
          | bool b => exact Option.noConfusion hp
          | null => exact Option.noConfusion hp
          | seq vs => exact Option.noConfusion hp
      | idx i =>
          cases v with
          | seq vs =>
              simp only [atPath] at hp
              cases hw : getIdx vs i with
              | none => rw [hw] at hp; exact Option.noConfusion hp
              | some w =>
                  rw [hw] at hp
                  cases hvs : interpList env shell posix vs with
                  | error e' =>
                      simp only [interpValue, hvs] at hv
                      exact Except.noConfusion hv
                  | ok vs' =>
                      simp only [interpValue, hvs, Except.ok.injEq] at hv
                      subst hv
                      obtain ⟨w', hw', hlk⟩ :=
                        interpList_getIdx env shell posix vs vs' i w hvs hw
                      simp only [atPath, hlk]
                      exact ih w w' a hw' hp ha
          | str s => exact Option.noConfusion hp
          | num n => exact Option.noConfusion hp
          | bool b => exact Option.noConfusion hp
          | null => exact Option.noConfusion hp
          | map fs => exact Option.noConfusion hp

/-- Keys of a top-level section survive interpolation: the interpolated
section binds the same key to the interpolation of its (normalized) old
entry. -/
theorem interpDoc_lookup (env : List (String × String))
    (shell : String → Option String) (posix : Bool) (kind k : String) :
    ∀ (fs fs' : Fields) (w : Value),
      interpDoc env shell posix kind fs = .ok fs' →
      lookupFields fs k = some w →
      ∃ w', interpValue env shell posix (normalizeEntry kind w) = .ok w' ∧
        lookupFields fs' k = some w'
  | .fnil, _, _, _, hl => by
      rw [lookupFields] at hl
      exact Option.noConfusion hl
  | .fcons k0 v rest, fs', w, hf, hl => by
      cases hv : interpValue env shell posix (normalizeEntry kind v) with
      | error e =>
          simp only [interpDoc, hv] at hf
          exact Except.noConfusion hf
      | ok v' =>
          cases hr : interpDoc env shell posix kind rest with
          | error e =>
              simp only [interpDoc, hv, hr] at hf
              exact Except.noConfusion hf
          | ok rest' =>
              simp only [interpDoc, hv, hr, Except.ok.injEq] at hf
              subst hf
              rw [lookupFields] at hl
              by_cases hk : (k == k0) = true
              · rw [if_pos hk] at hl
                injection hl with hl
                subst hl
                exact ⟨v', hv, by rw [lookupFields, if_pos hk]⟩
              · rw [if_neg hk] at hl
                obtain ⟨w', hw', hlk⟩ :=
                  interpDoc_lookup env shell posix kind k rest rest' w hr hl
                exact ⟨w', hw', by rw [lookupFields, if_neg hk]; exact hlk⟩

/-- Number and boolean scalars, as opposed to null. -/
def numOrBool : Value → Bool
  | .num _ => true
  | .bool _ => true
  | _ => false

theorem atomLike_of_numOrBool {a : Value} (h : numOrBool a = true) :
    atomLike a = true := by
  cases a <;> first | rfl | exact Bool.noConfusion h

/-- A number or boolean found at any path of a section document is still
there, unchanged, after interpolation of the section (the entry-level
null-normalization rule cannot touch it). -/
theorem interpDoc_preserves_atom (env : List (String × String))
    (shell : String → Option String) (posix : Bool) (kind : String)
    (doc doc' : Fields) (p : List PathElem) (a : Value)
    (hd : interpDoc env shell posix kind doc = .ok doc')
    (hp : atPath (.map doc) p = some a) (ha : numOrBool a = true) :
    atPath (.map doc') p = some a := by
  cases p with
  | nil =>
      injection hp with hp
      rw [← hp] at ha
      exact Bool.noConfusion ha
  | cons e p' =>
      cases e with
      | idx i => exact Option.noConfusion hp
      | key k =>
          simp only [atPath] at hp
          cases hw : lookupFields doc k with
          | none => rw [hw] at hp; exact Option.noConfusion hp
          | some w =>
              rw [hw] at hp
              obtain ⟨w', hw', hlk⟩ :=
                interpDoc_lookup env shell posix kind k doc doc' w hd hw
              simp only [atPath, hlk]
              cases hnull : isNullValue w with
              | true =>
                  have hwn : w = .null := by
                    cases w <;> first | rfl | exact Bool.noConfusion hnull
                  subst hwn
                  cases p' with
                  | nil =>
                      injection hp with hp
                      rw [← hp] at ha
                      exact Bool.noConfusion ha
                  | cons e'' p'' => exact Option.noConfusion hp
              | false =>
                  rw [normalizeEntry_non_null kind w hnull] at hw'
                  exact interp_preserves_atom env shell posix p' w w' a hw'
                    hp (atomLike_of_numOrBool ha)

/-- C7: every non-string scalar — a number or a boolean — at any nesting
depth of any section document is returned unchanged in value and type by
interpolation; in particular a numeric `2` under `driver_opts` stays the
number `2` and is never coerced to a string. -/
theorem c7_nonstring_scalar_frame (doc doc' : Fields) (kind : String)
    (env : List (String × String)) (shell : String → Option String)
    (posix : Bool) (p : List PathElem) (a : Value)
    (h1 : interpolate_environment_variables doc kind env shell posix = .ok doc')
    (h2 : atPath (.map doc) p = some a)
    (h3 : numOrBool a = true) :
    atPath (.map doc') p = some a :=
  interpDoc_preserves_atom env shell posix kind doc doc' p a h1 h2 h3

/-- A volume section holding a number and a boolean under `driver_opts`,
next to a string that does get substituted. -/
def frameDoc : Fields :=
  .fcons "data"
    (.map (.fcons "driver" (.str "$FOO")
      (.fcons "driver_opts"
        (.map (.fcons "max" (.num 2)
          (.fcons "enabled" (.bool true) .fnil))) .fnil))) .fnil

/-- Interpolation of `frameDoc` under `USER=jenny, FOO=bar`. -/
def frameExpected : Fields :=
  .fcons "data"
    (.map (.fcons "driver" (.str "bar")
      (.fcons "driver_opts"
        (.map (.fcons "max" (.num 2)
          (.fcons "enabled" (.bool true) .fnil))) .fnil))) .fnil

/-- Witness for C7: in the interpolated `frameDoc` the number `2` and the
boolean `true` are still at their original paths. -/
theorem c7_witness :
    atPath (.map frameExpected)
      [.key "data", .key "driver_opts", .key "max"] = some (.num 2) ∧
    atPath (.map frameExpected)
      [.key "data", .key "driver_opts", .key "enabled"] = some (.bool true) :=
  ⟨c7_nonstring_scalar_frame frameDoc frameExpected "volume" mockEnv noShell
      true [.key "data", .key "driver_opts", .key "max"] (.num 2)
      rfl rfl rfl,
   c7_nonstring_scalar_frame frameDoc frameExpected "volume" mockEnv noShell
      true [.key "data", .key "driver_opts", .key "enabled"] (.bool true)
      rfl rfl rfl⟩

/-- C6: under a section kind that supports shorthand entries a null directly
under the top-level mapping becomes an empty mapping, under a section kind
that does not support shorthand it stays null, and a null at any deeper
nesting position is left as null. -/
theorem c6_null_normalization (kindA kindB k : String) (doc docA docB : Fields)
    (env : List (String × String)) (shell : String → Option String)
    (posix : Bool) (v v' : Value) (p : List PathElem)
    (hA : section_supports_shorthand kindA = true)
    (hB : section_supports_shorthand kindB = false)
    (hdA : interpolate_environment_variables doc kindA env shell posix = .ok docA)
    (hdB : interpolate_environment_variables doc kindB env shell posix = .ok docB)
    (hk : lookupFields doc k = some .null)
    (hv : interpValue env shell posix v = .ok v')
    (hp : atPath v p = some .null) :
    lookupFields docA k = some (.map .fnil) ∧
    lookupFields docB k = some .null ∧
    atPath v' p = some .null := by
  refine ⟨?_, ?_, interp_preserves_atom env shell posix p v v' .null hv hp rfl⟩
  · obtain ⟨w', hw', hlk⟩ :=
      interpDoc_lookup env shell posix kindA k doc docA .null hdA hk
    rw [show normalizeEntry kindA .null = .map .fnil from by
        rw [normalizeEntry, hA]; rfl] at hw'
    rw [show interpValue env shell posix (Value.map .fnil) = .ok (.map .fnil)
        from rfl] at hw'
    injection hw' with hw'
    rw [← hw'] at hlk
    exact hlk
  · obtain ⟨w', hw', hlk⟩ :=
      interpDoc_lookup env shell posix kindB k doc docB .null hdB hk
    rw [show normalizeEntry kindB .null = .null from by
        rw [normalizeEntry, hB]; rfl] at hw'
    rw [show interpValue env shell posix Value.null = .ok .null
        from rfl] at hw'
    injection hw' with hw'
    rw [← hw'] at hlk
    exact hlk

/-- Witness for C6: `\x7bother: null\x7d` becomes `\x7bother: \x7b\x7d\x7d`
under the `volume` kind, stays `\x7bother: null\x7d` under the `service`
kind, and a nested null under a mapping entry is untouched. -/
theorem c6_witness :
    lookupFields (.fcons "other" (.map .fnil) .fnil) "other" =
      some (.map .fnil) ∧
    lookupFields (.fcons "other" .null .fnil) "other" = some .null ∧
    atPath (.map (.fcons "a" .null .fnil)) [.key "a"] = some .null :=
  c6_null_normalization "volume" "service" "other"
    (.fcons "other" .null .fnil) (.fcons "other" (.map .fnil) .fnil)
    (.fcons "other" .null .fnil) mockEnv noShell true
    (.map (.fcons "a" .null .fnil)) (.map (.fcons "a" .null .fnil))
    [.key "a"] rfl rfl rfl rfl rfl rfl rfl
